import Mathlib

/-!
Shallow embedding of the SubSynth voice engine (plugins/subsynth/src) used to
check the specification claims: the ADSR envelope state machines from
envelope.rs and filter.rs, the DC blocker, the voice-pool operations of
lib.rs (start_voice, start_release_for_voices, choke_voices,
find_or_create_voice, the polyphonic-expression dispatch) and the
block-splitting scheduler inside process().

Modelling conventions: f32 arithmetic is embedded with exact rationals;
u8, u64 and usize with Nat (u64 wrap-around written explicitly); i32 with
Int; Rust panics with Except RustPanic; methods taking &mut self and
returning a value become functions returning a pair.  envelope.rs contains
unresolved git merge-conflict markers; the HEAD side of each conflict is
embedded, because it is the side consistent with the non-conflicted
six-state ADSREnvelopeState enum (which has Hold) and with the
seven-argument ADSREnvelope::new call that lib.rs performs.  Real-valued
per-voice render state that no claim refers to (oscillator phase,
velocity_sqrt, the five filter instances, the two LFO modulators, the
voice_gain smoother) is omitted from the Voice record.
-/

namespace Subsynth

/-- lib.rs:19 -/
def NUM_VOICES : Nat := 16

/-- lib.rs:20 -/
def MAX_BLOCK_SIZE : Nat := 64

/-- Rust fatal conditions of this crate, used as the error type of fallible
operations.  noAvailableSlotsForNewVoices is the explicit panic at
lib.rs:1348; indexOutOfBounds models a slice-index panic; unwrapNone models
Option::unwrap on None. -/
inductive RustPanic where
  | noAvailableSlotsForNewVoices
  | indexOutOfBounds
  | unwrapNone
  deriving DecidableEq

namespace EnvelopeRs

/-- envelope.rs:37-45, the six-state enum (with Hold). -/
inductive ADSREnvelopeState where
  | Idle
  | Attack
  | Hold
  | Decay
  | Sustain
  | Release
  deriving DecidableEq

/-- envelope.rs:15-35 (HEAD side of the conflict): the envelope used by
lib.rs for the amplitude and the two filter-modulation envelopes. -/
structure ADSREnvelope where
  attack : ℚ
  hold : ℚ
  decay : ℚ
  sustain : ℚ
  release : ℚ
  state : ADSREnvelopeState
  time : ℚ
  delta_time_per_sample : ℚ
  sample_rate : ℚ
  velocity : ℚ
  is_sustained : Bool
  scale : ℚ
  deriving DecidableEq

/-- envelope.rs:48-79 ADSREnvelope::new (HEAD side: seven arguments,
including hold); starts in Attack with time 0. -/
def ADSREnvelope.new (attack hold decay sustain release sample_rate velocity : ℚ) :
    ADSREnvelope :=
  { attack := attack
    hold := hold
    decay := decay
    sustain := sustain
    release := release
    state := ADSREnvelopeState.Attack
    time := 0
    delta_time_per_sample := 1 / sample_rate
    sample_rate := sample_rate
    velocity := velocity
    is_sustained := false
    scale := 1 }

/-- envelope.rs:80-97 set_velocity: stores the velocity and multiplies
attack, release, decay and sustain by it. -/
def ADSREnvelope.set_velocity (e : ADSREnvelope) (velocity : ℚ) : ADSREnvelope :=
  { e with
    velocity := velocity
    attack := e.attack * velocity
    release := e.release * velocity
    decay := e.decay * velocity
    sustain := e.sustain * velocity }

/-- envelope.rs:125-127 get_state. -/
def ADSREnvelope.get_state (e : ADSREnvelope) : ADSREnvelopeState :=
  e.state

/-- envelope.rs:212-214 set_envelope_stage: overwrites the state and
nothing else (in particular the time accumulator keeps its value). -/
def ADSREnvelope.set_envelope_stage (e : ADSREnvelope) (stage : ADSREnvelopeState) :
    ADSREnvelope :=
  { e with state := stage }

/-- envelope.rs:327-331 Envelope::trigger. -/
def ADSREnvelope.trigger (e : ADSREnvelope) : ADSREnvelope :=
  { e with state := ADSREnvelopeState.Attack, time := 0, is_sustained := false }

/-- envelope.rs:146-188 advance (HEAD side), the per-sample state-machine
step called once per sample from process() in lib.rs:960-962.  The time
accumulator is advanced first; then the match arms are tried in source
order, the first one being the blanket completion check
state != Idle && time * velocity >= release which hits every non-Idle
state, Sustain included. -/
def ADSREnvelope.advance (e0 : ADSREnvelope) : ADSREnvelope :=
  let e := { e0 with time := e0.time + e0.delta_time_per_sample }
  let change := e.time * e.velocity
  if e.state ≠ ADSREnvelopeState.Idle ∧ change ≥ e.release then
    { e with state := ADSREnvelopeState.Idle, time := 0 }
  else if e.state = ADSREnvelopeState.Attack ∧ change ≥ e.attack then
    { e with state := ADSREnvelopeState.Hold, time := 0 }
  else if e.state = ADSREnvelopeState.Hold ∧ change ≥ e.attack + e.hold then
    { e with state := ADSREnvelopeState.Decay, time := 0 }
  else if e.state = ADSREnvelopeState.Decay ∧ change ≥ e.attack + e.hold + e.decay then
    { e with state := ADSREnvelopeState.Sustain, time := 0 }
  else if e.state = ADSREnvelopeState.Sustain ∧
      change ≥ e.attack + e.hold + e.decay + e.sustain then
    { e with state := ADSREnvelopeState.Release, time := 0 }
  else e

end EnvelopeRs

namespace FilterRs

/-- filter.rs:22-29, the five-state enum (no Hold). -/
inductive ADSREnvelopeState where
  | Idle
  | Attack
  | Decay
  | Sustain
  | Release
  deriving DecidableEq

/-- filter.rs:9-20: the second, independent ADSREnvelope revision living in
filter.rs (the file has no conflict markers). -/
structure ADSREnvelope where
  attack : ℚ
  decay : ℚ
  sustain : ℚ
  release : ℚ
  state : ADSREnvelopeState
  time : ℚ
  delta_time_per_sample : ℚ
  sample_rate : ℚ
  velocity : ℚ
  deriving DecidableEq

/-- filter.rs:34-46 ADSREnvelope::new. -/
def ADSREnvelope.new (attack decay sustain release sample_rate velocity : ℚ) :
    ADSREnvelope :=
  { attack := attack
    decay := decay
    sustain := sustain
    release := release
    state := ADSREnvelopeState.Attack
    time := 0
    delta_time_per_sample := 1 / sample_rate
    sample_rate := sample_rate
    velocity := velocity }

/-- filter.rs:95-153 Envelope::get_value for filter.rs's ADSREnvelope:
advances time, computes the velocity-scaled durations (duration/velocity),
applies the blanket completion check (any non-Idle state goes to Idle once
time >= release/velocity), evaluates the current stage, applies the
blanket check a second time, and returns the stage value together with the
updated envelope. -/
def ADSREnvelope.get_value (e0 : ADSREnvelope) : ℚ × ADSREnvelope :=
  let e1 := { e0 with time := e0.time + e0.delta_time_per_sample }
  let velocity_sensitive_attack := e1.attack / e1.velocity
  let velocity_sensitive_decay := e1.decay / e1.velocity
  let velocity_sensitive_release := e1.release / e1.velocity
  let e2 :=
    if e1.state ≠ ADSREnvelopeState.Idle ∧ e1.time ≥ velocity_sensitive_release then
      { e1 with state := ADSREnvelopeState.Idle, time := 0 }
    else e1
  let p : ℚ × ADSREnvelope :=
    match e2.state with
    | ADSREnvelopeState.Idle => (0, e2)
    | ADSREnvelopeState.Attack =>
      let attack_value := e2.time / velocity_sensitive_attack
      if e2.time ≥ velocity_sensitive_attack then
        (1, { e2 with state := ADSREnvelopeState.Decay, time := 0 })
      else (attack_value, e2)
    | ADSREnvelopeState.Decay =>
      let decay_value := 1 - (1 - e2.sustain) * (e2.time / velocity_sensitive_decay)
      if e2.time ≥ velocity_sensitive_decay then
        (e2.sustain, { e2 with state := ADSREnvelopeState.Sustain, time := 0 })
      else (decay_value, e2)
    | ADSREnvelopeState.Sustain => (e2.sustain, e2)
    | ADSREnvelopeState.Release =>
      let release_value := e2.sustain * (1 - e2.time / velocity_sensitive_release)
      if e2.time ≥ velocity_sensitive_release then
        (0, { e2 with state := ADSREnvelopeState.Idle, time := 0 })
      else (release_value, e2)
  let e3 :=
    if p.2.state ≠ ADSREnvelopeState.Idle ∧ p.2.time ≥ velocity_sensitive_release then
      { p.2 with state := ADSREnvelopeState.Idle, time := 0 }
    else p.2
  (p.1, e3)

/-- filter.rs:160-162 Envelope::release: sets the state to Release and
nothing else; the time accumulator is not reset and no output level is
captured.  (Named invoke_release because the record field release already
takes the source name.) -/
def ADSREnvelope.invoke_release (e : ADSREnvelope) : ADSREnvelope :=
  { e with state := ADSREnvelopeState.Release }

end FilterRs

/-- filter.rs:490-503 DCBlocker::new with fixed pole r = 0.995 and zeroed
memory. -/
structure DCBlocker where
  x1 : ℚ
  y1 : ℚ
  r : ℚ
  deriving DecidableEq

def DCBlocker.new : DCBlocker :=
  { x1 := 0, y1 := 0, r := 995 / 1000 }

/-- filter.rs:505-510 DCBlocker::process:
output = input - x1 + r * y1, then the memory is updated. -/
def DCBlocker.process (b : DCBlocker) (input : ℚ) : ℚ × DCBlocker :=
  let output := input - b.x1 + b.r * b.y1
  (output, { b with x1 := input, y1 := output })

/-- lib.rs:1036, verbatim call pattern of the render loop: a brand-new
DCBlocker is constructed for every sample and immediately applied, so the
filter memory never carries over between samples. -/
def dc_blocked_sample (processed_sample : ℚ) : ℚ :=
  (DCBlocker.new.process processed_sample).1

/-- lib.rs:1465-1467, the const fn used by start_voice when the host
supplies no voice id: note | (channel << 16) on i32 (nonnegative here, so
embedded through Nat). -/
def compute_fallback_voice_id (note channel : Nat) : Int :=
  ((Nat.lor note (channel <<< 16) : Nat) : Int)

/-- lib.rs:1257-1262, the three-argument method
SubSynth::compute_fallback_voice_id used by find_or_create_voice:
note + channel + next_voice_id. -/
def SubSynthImpl.compute_fallback_voice_id (note channel next_voice_id : Nat) : Int :=
  (note : Int) + (channel : Int) + (next_voice_id : Int)

/-- lib.rs:98-127 Voice, restricted to the control-path fields the claims
refer to (see the module comment for the omitted render-state fields). -/
structure Voice where
  voice_id : Int
  channel : Nat
  note : Nat
  internal_voice_id : Nat
  velocity : ℚ
  releasing : Bool
  amp_envelope : EnvelopeRs.ADSREnvelope
  filter_cut_envelope : EnvelopeRs.ADSREnvelope
  filter_res_envelope : EnvelopeRs.ADSREnvelope
  pan : ℚ
  pressure : ℚ
  brightness : ℚ
  expression : ℚ
  tuning : ℚ
  vibrato : ℚ
  deriving DecidableEq

/-- The NoteEvent::VoiceTerminated payload sent through
context.send_event. -/
structure VoiceTerminated where
  timing : Nat
  voice_id : Option Int
  channel : Nat
  note : Nat
  deriving DecidableEq

/-- The SubSynthParams fields read by construct_envelopes (lib.rs:1085-1119). -/
structure SubSynthParams where
  amp_attack_ms : ℚ
  amp_envelope_level : ℚ
  amp_decay_ms : ℚ
  amp_sustain_level : ℚ
  amp_release_ms : ℚ
  filter_cut_attack_ms : ℚ
  filter_cut_envelope_level : ℚ
  filter_cut_decay_ms : ℚ
  filter_cut_sustain_ms : ℚ
  filter_cut_release_ms : ℚ
  filter_res_attack_ms : ℚ
  filter_res_envelope_level : ℚ
  filter_res_decay_ms : ℚ
  filter_res_sustain_ms : ℚ
  filter_res_release_ms : ℚ
  deriving DecidableEq

/-- lib.rs:1085-1119 construct_envelopes: builds the amplitude and the two
filter-modulation envelopes; note that the second constructor argument
(envelope.rs HEAD's hold parameter) receives the corresponding
envelope-level parameter. -/
def construct_envelopes (params : SubSynthParams) (sample_rate velocity : ℚ) :
    EnvelopeRs.ADSREnvelope × EnvelopeRs.ADSREnvelope × EnvelopeRs.ADSREnvelope :=
  (EnvelopeRs.ADSREnvelope.new params.amp_attack_ms params.amp_envelope_level
      params.amp_decay_ms params.amp_sustain_level params.amp_release_ms
      sample_rate velocity,
   EnvelopeRs.ADSREnvelope.new params.filter_cut_attack_ms
      params.filter_cut_envelope_level params.filter_cut_decay_ms
      params.filter_cut_sustain_ms params.filter_cut_release_ms
      sample_rate velocity,
   EnvelopeRs.ADSREnvelope.new params.filter_res_attack_ms
      params.filter_res_envelope_level params.filter_res_decay_ms
      params.filter_res_sustain_ms params.filter_res_release_ms
      sample_rate velocity)

/-- Number of occupied slots of the pool. -/
def countOccupied (voices : List (Option Voice)) : Nat :=
  (voices.filter fun v => v.isSome).length

/-- Accumulator loop of Iterator::min_by_key as lib.rs:1189-1193 uses it:
walk the remaining keys, keeping the index of the first minimal key seen
so far (Rust's min_by_key returns the first of equally minimal elements). -/
def minByKeyGo (bestIdx bestKey i : Nat) : List Nat → Nat
  | [] => bestIdx
  | k :: ks =>
    if k < bestKey then minByKeyGo i k (i + 1) ks
    else minByKeyGo bestIdx bestKey (i + 1) ks

/-- Index of the first minimal key of a list (0 for the empty list). -/
def minByKeyIdx : List Nat → Nat
  | [] => 0
  | k :: ks => minByKeyGo 0 k 1 ks

/-- Key function of lib.rs:1192: voice.as_ref().unwrap().internal_voice_id.
The None branch is unreachable where the key is used (the pool is full
there); it is given the default 0. -/
def voiceKey (ov : Option Voice) : Nat :=
  match ov with
  | some v => v.internal_voice_id
  | none => 0

/-- Index of the oldest voice: the slot whose voice has the smallest
internal_voice_id (first such slot), per lib.rs:1189-1193. -/
def oldestVoiceIdx (voices : List (Option Voice)) : Nat :=
  minByKeyIdx (voices.map voiceKey)

/-- lib.rs:1121-1220 start_voice.  Builds the new voice, bumps the
wrapping u64 sequence counter, and either fills the first free slot, or —
with a full pool — overwrites the oldest voice, silently when that voice's
amplitude envelope is Idle or Release and with one VoiceTerminated event
(carrying the evicted voice's id, channel and note) otherwise.  Returns
(new pool, new next_internal_voice_id, emitted events).  The final None
branch models the unreachable unwrap of min_by_key on an empty pool. -/
def start_voice (voices : List (Option Voice)) (next_internal_voice_id : Nat)
    (sample_offset : Nat) (voice_id? : Option Int) (channel note : Nat)
    (velocity pan pressure brightness expression vibrato tuning : ℚ)
    (amp_envelope filter_cut_envelope filter_res_envelope : EnvelopeRs.ADSREnvelope) :
    List (Option Voice) × Nat × List VoiceTerminated :=
  let new_voice : Voice :=
    { voice_id := voice_id?.getD (compute_fallback_voice_id note channel)
      internal_voice_id := next_internal_voice_id
      channel := channel
      note := note
      velocity := velocity
      releasing := false
      amp_envelope := amp_envelope
      filter_cut_envelope := filter_cut_envelope
      filter_res_envelope := filter_res_envelope
      pan := pan
      pressure := pressure
      brightness := brightness
      expression := expression
      tuning := tuning
      vibrato := vibrato }
  let next_id := (next_internal_voice_id + 1) % 2 ^ 64
  match voices.findIdx? fun v => v.isNone with
  | some free_voice_idx =>
    let v := { new_voice with
      amp_envelope := new_voice.amp_envelope.set_envelope_stage
        EnvelopeRs.ADSREnvelopeState.Attack
      filter_cut_envelope := new_voice.filter_cut_envelope.set_envelope_stage
        EnvelopeRs.ADSREnvelopeState.Attack
      filter_res_envelope := new_voice.filter_res_envelope.set_envelope_stage
        EnvelopeRs.ADSREnvelopeState.Attack }
    (voices.set free_voice_idx (some v), next_id, [])
  | none =>
    let oi := oldestVoiceIdx voices
    match voices.getD oi none with
    | some oldest =>
      if oldest.amp_envelope.get_state = EnvelopeRs.ADSREnvelopeState.Idle ∨
          oldest.amp_envelope.get_state = EnvelopeRs.ADSREnvelopeState.Release then
        let v := { new_voice with
          amp_envelope := new_voice.amp_envelope.set_envelope_stage
            EnvelopeRs.ADSREnvelopeState.Attack
          filter_cut_envelope := new_voice.filter_cut_envelope.set_envelope_stage
            EnvelopeRs.ADSREnvelopeState.Attack
          filter_res_envelope := new_voice.filter_res_envelope.set_envelope_stage
            EnvelopeRs.ADSREnvelopeState.Attack
          releasing := false }
        (voices.set oi (some v), next_id, [])
      else
        (voices.set oi (some new_voice), next_id,
          [{ timing := sample_offset
             voice_id := some oldest.voice_id
             channel := oldest.channel
             note := oldest.note }])
    | none => (voices, next_id, [])

/-- The matching rule the code applies in both start_release_for_voices
(lib.rs:1231) and choke_voices (lib.rs:1423-1424): the supplied id equals
the voice's id, OR the event's channel and note both equal the voice's. -/
def codeMatches (voice_id? : Option Int) (channel note : Nat) (v : Voice) : Prop :=
  voice_id? = some v.voice_id ∨ (channel = v.channel ∧ note = v.note)

instance (voice_id? : Option Int) (channel note : Nat) (v : Voice) :
    Decidable (codeMatches voice_id? channel note v) := by
  unfold codeMatches
  infer_instance

/-- The mutation lib.rs:1232-1235 applies to a voice on release: set the
releasing flag and force all three envelope states to Release (via
set_envelope_stage, which keeps the time accumulator). -/
def releasedVoice (v : Voice) : Voice :=
  { v with
    releasing := true
    amp_envelope := v.amp_envelope.set_envelope_stage
      EnvelopeRs.ADSREnvelopeState.Release
    filter_cut_envelope := v.filter_cut_envelope.set_envelope_stage
      EnvelopeRs.ADSREnvelopeState.Release
    filter_res_envelope := v.filter_res_envelope.set_envelope_stage
      EnvelopeRs.ADSREnvelopeState.Release }

/-- lib.rs:1222-1239 start_release_for_voices: every voice satisfying the
disjunctive matching rule is replaced by its released form. -/
def start_release_for_voices (voices : List (Option Voice)) (_sample_rate : ℚ)
    (voice_id? : Option Int) (channel note : Nat) : List (Option Voice) :=
  voices.map fun ov =>
    match ov with
    | none => none
    | some voice =>
      if codeMatches voice_id? channel note voice then some (releasedVoice voice)
      else some voice

/-- Recursion of lib.rs:1408-1441 choke_voices over the slots: a matching
voice (same disjunctive rule as release) is cleared and a VoiceTerminated
event carrying the event's channel and note is pushed; when an explicit
voice id was supplied the function returns right after the first match,
leaving the remaining slots untouched. -/
def choke_voices_go (sample_offset : Nat) (voice_id? : Option Int) (channel note : Nat) :
    List (Option Voice) → List (Option Voice) × List VoiceTerminated
  | [] => ([], [])
  | none :: rest =>
    let r := choke_voices_go sample_offset voice_id? channel note rest
    (none :: r.1, r.2)
  | some v :: rest =>
    if codeMatches voice_id? channel note v then
      let evt : VoiceTerminated :=
        { timing := sample_offset, voice_id := some v.voice_id
          channel := channel, note := note }
      if voice_id?.isSome then
        (none :: rest, [evt])
      else
        let r := choke_voices_go sample_offset voice_id? channel note rest
        (none :: r.1, evt :: r.2)
    else
      let r := choke_voices_go sample_offset voice_id? channel note rest
      (some v :: r.1, r.2)

/-- lib.rs:1408-1441 choke_voices; returns (new pool, emitted events). -/
def choke_voices (voices : List (Option Voice)) (sample_offset : Nat)
    (voice_id? : Option Int) (channel note : Nat) :
    List (Option Voice) × List VoiceTerminated :=
  choke_voices_go sample_offset voice_id? channel note voices

/-- Index of the first pool slot whose voice satisfies the disjunctive
matching rule (specification-side helper used to characterize the
early-return of choke_voices with an explicit voice id). -/
def chokeMatchIdx (voice_id? : Option Int) (channel note : Nat) :
    List (Option Voice) → Option Nat
  | [] => none
  | none :: rest => (chokeMatchIdx voice_id? channel note rest).map (· + 1)
  | some v :: rest =>
    if codeMatches voice_id? channel note v then some 0
    else (chokeMatchIdx voice_id? channel note rest).map (· + 1)

/-- lib.rs:1079-1083 get_voice_idx: the position of the first voice whose
id equals the given one. -/
def get_voice_idx (voices : List (Option Voice)) (voice_id : Int) : Option Nat :=
  voices.findIdx? fun ov =>
    match ov with
    | some v => v.voice_id == voice_id
    | none => false

/-- The while loop of lib.rs:1344-1350: starting from next_voice_index,
scan for a free slot, wrapping modulo NUM_VOICES; reaching the start index
again is the explicit panic "no available slots for new voices"; indexing
outside the pool is a slice-index panic.  The fuel argument only bounds
the recursion and is chosen larger than any possible cycle. -/
def find_slot_loop (voices : List (Option Voice)) (start : Nat) :
    Nat → Nat → Except RustPanic Nat
  | 0, _ => Except.error RustPanic.indexOutOfBounds
  | fuel + 1, i =>
    match voices.get? i with
    | none => Except.error RustPanic.indexOutOfBounds
    | some none => Except.ok i
    | some (some _) =>
      let i' := (i + 1) % NUM_VOICES
      if i' = start then Except.error RustPanic.noAvailableSlotsForNewVoices
      else find_slot_loop voices start fuel i'

/-- lib.rs:1264-1361 find_or_create_voice.  First looks for an existing
voice with voice_ref.voice_id == voice_id.unwrap_or(voice_ref.voice_id)
AND matching channel AND note (so with no id supplied the id test is
vacuous).  If none exists, computes the new voice id (bumping
next_voice_index only when no id was supplied), rebuilds the three
envelopes from the global parameters at 192 kHz / velocity 1 (the
passed-in envelopes are shadowed and unused, kept here as underscore
arguments), triggers them, and inserts the voice — with velocity 0 — at
the first free slot found by the wrapping scan, panicking when the pool is
full.  Returns (pool, new next_voice_index, index of the voice). -/
def find_or_create_voice (voices : List (Option Voice))
    (next_voice_index next_internal_voice_id : Nat) (params : SubSynthParams)
    (voice_id? : Option Int) (channel note : Nat)
    (pan pressure brightness expression tuning vibrato : ℚ)
    (_amp_envelope _filter_cut_envelope _filter_res_envelope : EnvelopeRs.ADSREnvelope) :
    Except RustPanic (List (Option Voice) × Nat × Nat) :=
  match voices.findIdx? (fun ov =>
      match ov with
      | some voice_ref =>
        decide (voice_id?.getD voice_ref.voice_id = voice_ref.voice_id ∧
          channel = voice_ref.channel ∧ note = voice_ref.note)
      | none => false) with
  | some existing_index => Except.ok (voices, next_voice_index, existing_index)
  | none =>
    let nvi1 := if voice_id?.isSome then next_voice_index else next_voice_index + 1
    let new_voice_id :=
      voice_id?.getD (SubSynthImpl.compute_fallback_voice_id note channel nvi1)
    let envs := construct_envelopes params 192000 1
    let new_voice : Voice :=
      { voice_id := new_voice_id
        channel := channel
        note := note
        internal_voice_id := next_internal_voice_id
        velocity := 0
        releasing := false
        amp_envelope := envs.1.trigger
        filter_cut_envelope := envs.2.1.trigger
        filter_res_envelope := envs.2.2.trigger
        pan := pan
        pressure := pressure
        brightness := brightness
        expression := expression
        tuning := tuning
        vibrato := vibrato }
    match find_slot_loop voices nvi1 (NUM_VOICES + 1) nvi1 with
    | Except.error p => Except.error p
    | Except.ok slot => Except.ok (voices.set slot (some new_voice), slot, slot)

/-- lib.rs:1363-1404 handle_poly_event: unwraps the cloned envelopes and
modulators, calls find_or_create_voice, then overwrites the found/created
voice's velocity with the event's gain and its amplitude envelope with the
passed clone re-scaled through set_velocity(gain).  Returns
(pool, new next_voice_index). -/
def handle_poly_event (voices : List (Option Voice))
    (next_voice_index next_internal_voice_id : Nat) (params : SubSynthParams)
    (_timing : Nat) (voice_id? : Option Int) (channel note : Nat)
    (gain pan brightness expression tuning pressure vibrato : ℚ)
    (amp_envelope? filter_cut_envelope? filter_res_envelope? :
      Option EnvelopeRs.ADSREnvelope) :
    Except RustPanic (List (Option Voice) × Nat) :=
  match amp_envelope?, filter_cut_envelope?, filter_res_envelope? with
  | some ae, some ce, some re' =>
    match find_or_create_voice voices next_voice_index next_internal_voice_id params
        voice_id? channel note pan pressure brightness expression tuning vibrato
        ae ce re' with
    | Except.error p => Except.error p
    | Except.ok (voices', nvi', idx) =>
      match voices'.getD idx none with
      | none => Except.error RustPanic.unwrapNone
      | some voice =>
        let voice' := { voice with
          velocity := gain
          amp_envelope := ae.set_velocity gain }
        Except.ok (voices'.set idx (some voice'), nvi')
  | _, _, _ => Except.error RustPanic.unwrapNone

/-- lib.rs:665-708, the NoteEvent::PolyPressure arm of process(): the event
is handled only when get_voice_idx finds a voice whose id equals
voice_id.unwrap_or_default() (0 when absent); otherwise nothing happens
and the event is dropped.  When a voice is found, its expression fields
are copied and handle_poly_event is invoked with gain 0 and the event's
pressure. -/
def process_poly_pressure (voices : List (Option Voice))
    (next_voice_index next_internal_voice_id : Nat) (params : SubSynthParams)
    (timing : Nat) (voice_id? : Option Int) (channel note : Nat) (pressure : ℚ) :
    Except RustPanic (List (Option Voice) × Nat) :=
  match get_voice_idx voices (voice_id?.getD 0) with
  | none => Except.ok (voices, next_voice_index)
  | some voice_idx =>
    match voices.getD voice_idx none with
    | none => Except.ok (voices, next_voice_index)
    | some voice_inner =>
      handle_poly_event voices next_voice_index next_internal_voice_id params timing
        voice_id? channel note 0 voice_inner.pan voice_inner.brightness
        voice_inner.expression voice_inner.tuning pressure voice_inner.vibrato
        (some voice_inner.amp_envelope) (some voice_inner.filter_cut_envelope)
        (some voice_inner.filter_res_envelope)

/-- The inner 'events loop of process() (lib.rs:488-901), drained over the
list of event timestamps (assumed, as the host guarantees, non-decreasing).
First arm (lib.rs:491): an event with timing < block_end is applied now and
the loop continues.  Second arm (lib.rs:895-898): written with the very
same guard timing < block_end, so it can never fire — it is kept here
verbatim to model the source faithfully; it would have cut block_end down
to the event's timestamp.  Otherwise the loop breaks.  Returns (timestamps
applied now, remaining events, resulting block_end). -/
def eventsLoop (blockEnd : Nat) : List Nat → List Nat × List Nat × Nat
  | [] => ([], [], blockEnd)
  | t :: rest =>
    if t < blockEnd then
      let r := eventsLoop blockEnd rest
      (t :: r.1, r.2.1, r.2.2)
    else if t < blockEnd then
      ([], t :: rest, t)
    else
      ([], t :: rest, blockEnd)

/-- The outer while loop of process() (lib.rs:477-1072): while
block_start < num_samples, drain the events, record the rendered sub-block
[block_start, block_end) together with the events applied at its start,
then advance block_start := block_end and
block_end := min(block_start + MAX_BLOCK_SIZE, num_samples).  Fuel bounds
the recursion; num_samples + 1 always suffices because each iteration
advances block_start by at least one. -/
def processLoop : Nat → Nat → Nat → Nat → List Nat → List (Nat × Nat × List Nat)
  | 0, _, _, _, _ => []
  | fuel + 1, numSamples, blockStart, blockEnd, events =>
    if blockStart < numSamples then
      let r := eventsLoop blockEnd events
      (blockStart, r.2.2, r.1) ::
        processLoop fuel numSamples r.2.2 (Nat.min (r.2.2 + MAX_BLOCK_SIZE) numSamples) r.2.1
    else []

/-- The sub-block schedule of one render call of N samples (lib.rs:477-480
and 1069-1071): block_start starts at 0 and block_end at
min(MAX_BLOCK_SIZE, N).  Each returned entry is
(block_start, block_end, timestamps of the events applied before any
sample of the sub-block is rendered). -/
def schedule (numSamples : Nat) (events : List Nat) : List (Nat × Nat × List Nat) :=
  processLoop (numSamples + 1) numSamples 0 (Nat.min MAX_BLOCK_SIZE numSamples) events

/-- lib.rs:1037, the left pan gain sqrt(1 - pan). -/
noncomputable def left_amp (pan : ℝ) : ℝ :=
  Real.sqrt (1 - pan)

/-- lib.rs:1038, the right pan gain sqrt(pan). -/
noncomputable def right_amp (pan : ℝ) : ℝ :=
  Real.sqrt pan

/-- Modelled from the spec: the matching rule claimed in the specification
("a candidate matches if an explicit voice id was supplied and equals the
candidate's id, OR no voice id was supplied and both channel and note
equal the candidate's"), written here only to be compared with the
disjunctive rule that the code actually uses. -/
def specMatches (voice_id? : Option Int) (channel note : Nat) (v : Voice) : Bool :=
  match voice_id? with
  | some id => id == v.voice_id
  | none => channel == v.channel && note == v.note

/-- Concrete envelope sitting in Sustain (sustain level 1/2, release 1 time
unit, velocity 1, 1 Hz sample rate so one advance step adds 1 time unit). -/
def c4_sustain_env : EnvelopeRs.ADSREnvelope :=
  { attack := 0
    hold := 0
    decay := 0
    sustain := 1 / 2
    release := 1
    state := EnvelopeRs.ADSREnvelopeState.Sustain
    time := 0
    delta_time_per_sample := 1
    sample_rate := 1
    velocity := 1
    is_sustained := false
    scale := 1 }

/-- Concrete filter.rs envelope: attack 2 s, decay 1 s, sustain 1/2,
release 10 s, sample rate 1 Hz, velocity 1; freshly triggered (Attack). -/
def c5_env0 : FilterRs.ADSREnvelope :=
  FilterRs.ADSREnvelope.new 2 1 (1 / 2) 10 1 1

/-- Concrete filter.rs envelope already in the Release state with one time
unit on the accumulator. -/
def c5_release_env : FilterRs.ADSREnvelope :=
  { attack := 2
    decay := 1
    sustain := 1 / 2
    release := 10
    state := FilterRs.ADSREnvelopeState.Release
    time := 1
    delta_time_per_sample := 1
    sample_rate := 1
    velocity := 1 }

/-- A simple concrete envelope value for pool fixtures. -/
def testEnv : EnvelopeRs.ADSREnvelope :=
  EnvelopeRs.ADSREnvelope.new 1 1 10 1 5 48000 1

/-- A concrete voice: id i, channel 0, note 60 + i, internal sequence
number i, amplitude envelope sitting in Sustain. -/
def mkTestVoice (i : Nat) : Voice :=
  { voice_id := (i : Int)
    channel := 0
    note := 60 + i
    internal_voice_id := i
    velocity := 1
    releasing := false
    amp_envelope := { testEnv with state := EnvelopeRs.ADSREnvelopeState.Sustain }
    filter_cut_envelope := testEnv
    filter_res_envelope := testEnv
    pan := 1 / 2
    pressure := 1
    brightness := 1
    expression := 1
    tuning := 0
    vibrato := 0 }

/-- A full 16-slot pool of distinct sounding voices. -/
def fullPool : List (Option Voice) :=
  (List.range NUM_VOICES).map fun i => some (mkTestVoice i)

/-- An entirely empty 16-slot pool. -/
def emptyPool : List (Option Voice) :=
  List.replicate NUM_VOICES none

/-- Concrete voice with id 1, channel 0, note 61. -/
def c3_voice : Voice :=
  mkTestVoice 1

/-- Concrete voice whose id is 5 but whose channel and note (1, 70) differ
from the polyphonic-expression event's (0, 60). -/
def c6_voice0 : Voice :=
  { mkTestVoice 0 with voice_id := 5, channel := 1, note := 70 }

/-- A full pool whose only id-5 voices sit at slot 0 (channel 1, note 70)
and slot 5 (channel 0, note 65): no voice matches id 5 together with
channel 0 and note 60. -/
def c6_pool : List (Option Voice) :=
  some c6_voice0 :: ((List.range 15).map fun i => some (mkTestVoice (i + 1)))

/-- Concrete global parameter values. -/
def testParams : SubSynthParams :=
  ⟨1, 1, 10, 1, 5, 1, 0, 10, 1, 1, 10, 0, 10, 1, 1⟩

/- ------------------------------------------------------------------ -/
/- Helper lemmas -/
/- ------------------------------------------------------------------ -/

theorem countOccupied_le_length (voices : List (Option Voice)) :
    countOccupied voices ≤ voices.length :=
  List.length_filter_le _ _

theorem minByKeyGo_range (ks : List Nat) : ∀ bi bk i : Nat,
    minByKeyGo bi bk i ks = bi ∨ minByKeyGo bi bk i ks < i + ks.length := by
  induction ks with
  | nil =>
    intro bi bk i
    left
    rfl
  | cons k ks ih =>
    intro bi bk i
    simp only [minByKeyGo]
    by_cases hk : k < bk
    · rw [if_pos hk]
      rcases ih i k (i + 1) with h | h
      · right
        rw [h]
        simp only [List.length_cons]
        omega
      · right
        simp only [List.length_cons]
        omega
    · rw [if_neg hk]
      rcases ih bi bk (i + 1) with h | h
      · left
        exact h
      · right
        simp only [List.length_cons]
        omega

theorem minByKeyGo_min (ks : List Nat) : ∀ (bi bk i : Nat) (keys : List Nat),
    keys.getD bi 0 = bk →
    (∀ m, m < ks.length → keys.getD (i + m) 0 = ks.getD m 0) →
    keys.getD (minByKeyGo bi bk i ks) 0 ≤ bk ∧
      ∀ m, m < ks.length → keys.getD (minByKeyGo bi bk i ks) 0 ≤ ks.getD m 0 := by
  induction ks with
  | nil =>
    intro bi bk i keys hb _
    refine ⟨le_of_eq hb, ?_⟩
    intro m hm
    simp at hm
  | cons k ks ih =>
    intro bi bk i keys hb hsh
    have hk0 : keys.getD i 0 = k := by
      have h0 := hsh 0 (by simp)
      simpa using h0
    have hshift : ∀ m, m < ks.length → keys.getD (i + 1 + m) 0 = ks.getD m 0 := by
      intro m hm
      have hm1 := hsh (m + 1) (by simp only [List.length_cons]; omega)
      rw [show i + 1 + m = i + (m + 1) from by omega]
      simpa using hm1
    simp only [minByKeyGo]
    by_cases hk : k < bk
    · rw [if_pos hk]
      obtain ⟨h1, h2⟩ := ih i k (i + 1) keys hk0 hshift
      refine ⟨le_trans h1 (le_of_lt hk), ?_⟩
      intro m hm
      cases m with
      | zero => simpa using h1
      | succ m =>
        have hm' : m < ks.length := by simp only [List.length_cons] at hm; omega
        simpa using h2 m hm'
    · rw [if_neg hk]
      obtain ⟨h1, h2⟩ := ih bi bk (i + 1) keys hb hshift
      refine ⟨h1, ?_⟩
      intro m hm
      cases m with
      | zero =>
        have hbk : bk ≤ k := Nat.not_lt.mp hk
        simpa using le_trans h1 hbk
      | succ m =>
        have hm' : m < ks.length := by simp only [List.length_cons] at hm; omega
        simpa using h2 m hm'

theorem minByKeyIdx_spec (keys : List Nat) (hne : keys ≠ []) :
    minByKeyIdx keys < keys.length ∧
      ∀ j, j < keys.length → keys.getD (minByKeyIdx keys) 0 ≤ keys.getD j 0 := by
  match keys, hne with
  | k :: ks, _ =>
    simp only [minByKeyIdx]
    constructor
    · rcases minByKeyGo_range ks 0 k 1 with h | h
      · rw [h]
        simp
      · simp only [List.length_cons]
        omega
    · have hb : (k :: ks).getD 0 0 = k := rfl
      have hsh : ∀ m, m < ks.length → (k :: ks).getD (1 + m) 0 = ks.getD m 0 := by
        intro m hm
        rw [show 1 + m = m + 1 from by omega]
        simp
      obtain ⟨h1, h2⟩ := minByKeyGo_min ks 0 k 1 (k :: ks) hb hsh
      intro j hj
      cases j with
      | zero => simpa using h1
      | succ j =>
        have hj' : j < ks.length := by simp only [List.length_cons] at hj; omega
        simpa using h2 j hj'

theorem getD_map_voiceKey (voices : List (Option Voice)) (j : Nat)
    (hj : j < voices.length) :
    (voices.map voiceKey).getD j 0 = voiceKey (voices.getD j none) := by
  simp [List.getD_eq_getElem?_getD, List.getElem?_eq_getElem hj]

theorem start_release_characterization (sr : ℚ) (voice_id? : Option Int)
    (channel note : Nat) :
    ∀ (voices : List (Option Voice)) (i : Nat) (v : Voice),
      voices.getD i none = some v →
      (codeMatches voice_id? channel note v →
        (start_release_for_voices voices sr voice_id? channel note).getD i none =
          some (releasedVoice v)) ∧
      (¬codeMatches voice_id? channel note v →
        (start_release_for_voices voices sr voice_id? channel note).getD i none =
          some v) := by
  intro voices
  induction voices with
  | nil =>
    intro i v h
    simp [List.getD_eq_getElem?_getD] at h
  | cons x xs ih =>
    intro i v h
    cases i with
    | zero =>
      have hx : x = some v := by simpa using h
      subst hx
      constructor
      · intro hm
        simp [start_release_for_voices, hm]
      · intro hm
        simp [start_release_for_voices, hm]
    | succ i =>
      have h' : xs.getD i none = some v := by simpa using h
      obtain ⟨h1, h2⟩ := ih i v h'
      constructor
      · intro hm
        simpa [start_release_for_voices] using h1 hm
      · intro hm
        simpa [start_release_for_voices] using h2 hm

theorem choke_noid_characterization (sample_offset : Nat) (channel note : Nat) :
    ∀ (voices : List (Option Voice)) (i : Nat) (v : Voice),
      voices.getD i none = some v →
      (codeMatches none channel note v →
        (choke_voices voices sample_offset none channel note).1.getD i none = none) ∧
      (¬codeMatches none channel note v →
        (choke_voices voices sample_offset none channel note).1.getD i none = some v) := by
  intro voices
  induction voices with
  | nil =>
    intro i v h
    simp [List.getD_eq_getElem?_getD] at h
  | cons x xs ih =>
    intro i v h
    cases i with
    | zero =>
      have hx : x = some v := by simpa using h
      subst hx
      constructor
      · intro hm
        simp [choke_voices, choke_voices_go, hm]
      · intro hm
        simp [choke_voices, choke_voices_go, hm]
    | succ i =>
      have h' : xs.getD i none = some v := by simpa using h
      obtain ⟨h1, h2⟩ := ih i v h'
      have hgo : ∀ P : Prop, (choke_voices xs sample_offset none channel note).1.getD i none =
          none → P → P := fun _ _ p => p
      constructor
      · intro hm
        cases x with
        | none => simpa [choke_voices, choke_voices_go] using h1 hm
        | some w =>
          by_cases hw : codeMatches none channel note w
          · simpa [choke_voices, choke_voices_go, hw] using h1 hm
          · simpa [choke_voices, choke_voices_go, hw] using h1 hm
      · intro hm
        cases x with
        | none => simpa [choke_voices, choke_voices_go] using h2 hm
        | some w =>
          by_cases hw : codeMatches none channel note w
          · simpa [choke_voices, choke_voices_go, hw] using h2 hm
          · simpa [choke_voices, choke_voices_go, hw] using h2 hm

theorem choke_id_characterization (sample_offset : Nat) (id : Int) (channel note : Nat) :
    ∀ voices : List (Option Voice),
      (chokeMatchIdx (some id) channel note voices = none →
        choke_voices voices sample_offset (some id) channel note = (voices, [])) ∧
      (∀ k v, chokeMatchIdx (some id) channel note voices = some k →
        voices.getD k none = some v →
        choke_voices voices sample_offset (some id) channel note =
          (voices.set k none, [⟨sample_offset, some v.voice_id, channel, note⟩])) := by
  intro voices
  induction voices with
  | nil =>
    constructor
    · intro _
      rfl
    · intro k v hk _
      simp [chokeMatchIdx] at hk
  | cons x xs ih =>
    obtain ⟨ih1, ih2⟩ := ih
    cases x with
    | none =>
      constructor
      · intro hnone
        have htail : chokeMatchIdx (some id) channel note xs = none := by
          simpa [chokeMatchIdx] using hnone
        have hxs := ih1 htail
        simp only [choke_voices, choke_voices_go] at hxs ⊢
        rw [hxs]
      · intro k v hk hv
        obtain ⟨k', hk', rfl⟩ : ∃ k', chokeMatchIdx (some id) channel note xs = some k' ∧
            k = k' + 1 := by
          rcases hmap : chokeMatchIdx (some id) channel note xs with _ | k'
          · simp [chokeMatchIdx, hmap] at hk
          · refine ⟨k', rfl, ?_⟩
            simp [chokeMatchIdx, hmap] at hk
            omega
        have hv' : xs.getD k' none = some v := by simpa using hv
        have hxs := ih2 k' v hk' hv'
        simp only [choke_voices, choke_voices_go] at hxs ⊢
        rw [hxs]
        rfl
    | some w =>
      by_cases hw : codeMatches (some id) channel note w
      · constructor
        · intro hnone
          simp [chokeMatchIdx, hw] at hnone
        · intro k v hk hv
          have hk0 : k = 0 := by
            simp [chokeMatchIdx, hw] at hk
            omega
          subst hk0
          have hwv : w = v := by simpa using hv
          subst hwv
          simp [choke_voices, choke_voices_go, hw]
      · constructor
        · intro hnone
          have htail : chokeMatchIdx (some id) channel note xs = none := by
            simpa [chokeMatchIdx, hw] using hnone
          have hxs := ih1 htail
          simp only [choke_voices, choke_voices_go] at hxs ⊢
          rw [if_neg hw, hxs]
        · intro k v hk hv
          obtain ⟨k', hk', rfl⟩ : ∃ k', chokeMatchIdx (some id) channel note xs = some k' ∧
              k = k' + 1 := by
            rcases hmap : chokeMatchIdx (some id) channel note xs with _ | k'
            · simp [chokeMatchIdx, hw, hmap] at hk
            · refine ⟨k', rfl, ?_⟩
              simp [chokeMatchIdx, hw, hmap] at hk
              omega
          have hv' : xs.getD k' none = some v := by simpa using hv
          have hxs := ih2 k' v hk' hv'
          simp only [choke_voices, choke_voices_go] at hxs ⊢
          rw [if_neg hw, hxs]
          rfl

/- ------------------------------------------------------------------ -/
/- Claim theorems -/
/- ------------------------------------------------------------------ -/

/-- C1.  The claim says the scheduler cuts every sub-block at the timestamp
of the next unconsumed event, so that a NoteOn at sample 10 of a 64-sample
render call contributes nothing before sample 10.  The code does not: both
match arms of the event loop carry the guard timing < block_end, so the
block-shortening arm is dead and the event at t = 10 is drained and
applied before sample 0 of the single block [0, 64).  This theorem
evaluates the embedded scheduler at that failing input: the whole call is
one sub-block (0, 64) whose applied-event list already holds the t = 10
event, while the block_end formula stated by the claim would have given
min(0 + MAX_BLOCK_SIZE, 64, 10) = 10 ≠ 64. -/
theorem C1_event_applied_at_block_start :
    schedule 64 [10] = [(0, 64, [10])] ∧
    Nat.min (Nat.min (0 + MAX_BLOCK_SIZE) 64) 10 = 10 ∧ (64 : Nat) ≠ 10 := by
  decide

/-- C2.  Voice stealing: on a 16-slot pool, start_voice keeps the occupancy
at or below NUM_VOICES and always places the new voice (a NoteOn is never
refused).  When every slot is occupied, the overwritten slot is the one
holding the voice with the smallest internal sequence number; the
overwrite is silent (no event) when that voice's amplitude envelope is in
Idle or Release, and otherwise exactly one VoiceTerminated event carrying
that voice's id, channel and note is emitted. -/
theorem C2_voice_stealing
    (voices : List (Option Voice)) (nid sample_offset : Nat) (voice_id? : Option Int)
    (channel note : Nat) (velocity pan pressure brightness expression vibrato tuning : ℚ)
    (ae ce re' : EnvelopeRs.ADSREnvelope)
    (h16 : voices.length = NUM_VOICES) :
    let r := start_voice voices nid sample_offset voice_id? channel note velocity pan
      pressure brightness expression vibrato tuning ae ce re'
    countOccupied r.1 ≤ NUM_VOICES ∧
    (∃ i nv, i < voices.length ∧ r.1 = voices.set i (some nv) ∧
      nv.internal_voice_id = nid ∧ nv.channel = channel ∧ nv.note = note ∧
      nv.voice_id = voice_id?.getD (compute_fallback_voice_id note channel)) ∧
    ((∀ v ∈ voices, v.isSome) →
      ∃ oldest,
        voices.getD (oldestVoiceIdx voices) none = some oldest ∧
        (∀ j, j < voices.length →
          oldest.internal_voice_id ≤ voiceKey (voices.getD j none)) ∧
        (∃ nv, r.1 = voices.set (oldestVoiceIdx voices) (some nv) ∧
          nv.internal_voice_id = nid) ∧
        ((oldest.amp_envelope.get_state = EnvelopeRs.ADSREnvelopeState.Idle ∨
            oldest.amp_envelope.get_state = EnvelopeRs.ADSREnvelopeState.Release) →
          r.2.2 = []) ∧
        (¬(oldest.amp_envelope.get_state = EnvelopeRs.ADSREnvelopeState.Idle ∨
            oldest.amp_envelope.get_state = EnvelopeRs.ADSREnvelopeState.Release) →
          r.2.2 =
            [⟨sample_offset, some oldest.voice_id, oldest.channel, oldest.note⟩])) := by
  dsimp only
  have hlt0 : 0 < voices.length := by
    rw [h16]
    decide
  have hoi : oldestVoiceIdx voices < voices.length := by
    have hkeysne : voices.map voiceKey ≠ [] := by
      intro hc
      have hlc := congrArg List.length hc
      simp only [List.length_map, List.length_nil] at hlc
      omega
    have hs := (minByKeyIdx_spec (voices.map voiceKey) hkeysne).1
    simpa [oldestVoiceIdx] using hs
  have hlen : (start_voice voices nid sample_offset voice_id? channel note velocity pan
      pressure brightness expression vibrato tuning ae ce re').1.length = voices.length := by
    unfold start_voice
    cases hf : voices.findIdx? fun v => v.isNone with
    | some i => simp
    | none =>
      cases hg : voices[oldestVoiceIdx voices]?.getD none with
      | none => simp [hg]
      | some oldest =>
        by_cases hb : oldest.amp_envelope.get_state = EnvelopeRs.ADSREnvelopeState.Idle ∨
            oldest.amp_envelope.get_state = EnvelopeRs.ADSREnvelopeState.Release
        · simp [hg, hb]
        · simp [hg, hb]
  refine ⟨le_trans (countOccupied_le_length _) (le_of_eq (by rw [hlen, h16])), ?_, ?_⟩
  · cases hf : voices.findIdx? fun v => v.isNone with
    | some i =>
      have hi : i < voices.length := (List.findIdx?_eq_some_iff_findIdx_eq.mp hf).1
      unfold start_voice
      rw [hf]
      exact ⟨i, _, hi, rfl, rfl, rfl, rfl, rfl⟩
    | none =>
      have hall : ∀ x ∈ voices, x.isSome := by
        intro x hx
        have hfx := List.findIdx?_eq_none_iff.mp hf x hx
        cases x <;> simp_all
      have hgd : voices[oldestVoiceIdx voices]?.getD none = voices[oldestVoiceIdx voices] := by
        rw [List.getElem?_eq_getElem hoi]
        rfl
      have hsome : (voices[oldestVoiceIdx voices]?.getD none).isSome := by
        rw [hgd]
        exact hall _ (List.getElem_mem hoi)
      obtain ⟨oldest, holdest⟩ := Option.isSome_iff_exists.mp hsome
      have holdest' : voices.getD (oldestVoiceIdx voices) none = some oldest := by
        rw [List.getD_eq_getElem?_getD]
        exact holdest
      by_cases hb : oldest.amp_envelope.get_state = EnvelopeRs.ADSREnvelopeState.Idle ∨
          oldest.amp_envelope.get_state = EnvelopeRs.ADSREnvelopeState.Release
      · unfold start_voice
        rw [hf]
        dsimp only
        rw [holdest']
        dsimp only
        rw [if_pos hb]
        exact ⟨oldestVoiceIdx voices, _, hoi, rfl, rfl, rfl, rfl, rfl⟩
      · unfold start_voice
        rw [hf]
        dsimp only
        rw [holdest']
        dsimp only
        rw [if_neg hb]
        exact ⟨oldestVoiceIdx voices, _, hoi, rfl, rfl, rfl, rfl, rfl⟩
  · intro hfull
    have hf : (voices.findIdx? fun v => v.isNone) = none := by
      rw [List.findIdx?_eq_none_iff]
      intro x hx
      have hxs := hfull x hx
      cases x
      · simp at hxs
      · simp
    have hgd : voices[oldestVoiceIdx voices]?.getD none = voices[oldestVoiceIdx voices] := by
      rw [List.getElem?_eq_getElem hoi]
      rfl
    have hsome : (voices[oldestVoiceIdx voices]?.getD none).isSome := by
      rw [hgd]
      exact hfull _ (List.getElem_mem hoi)
    obtain ⟨oldest, holdest⟩ := Option.isSome_iff_exists.mp hsome
    have holdest' : voices.getD (oldestVoiceIdx voices) none = some oldest := by
      rw [List.getD_eq_getElem?_getD]
      exact holdest
    refine ⟨oldest, holdest', ?_, ?_, ?_, ?_⟩
    · intro j hj
      have hkeysne : voices.map voiceKey ≠ [] := by
        intro hc
        have hlc := congrArg List.length hc
        simp only [List.length_map, List.length_nil] at hlc
        omega
      have hs := (minByKeyIdx_spec (voices.map voiceKey) hkeysne).2
      have hj' : j < (voices.map voiceKey).length := by simpa using hj
      have hmin : (voices.map voiceKey).getD (oldestVoiceIdx voices) 0 ≤
          (voices.map voiceKey).getD j 0 := hs j hj'
      rw [getD_map_voiceKey voices _ hoi, getD_map_voiceKey voices j hj] at hmin
      rw [holdest'] at hmin
      simpa [voiceKey] using hmin
    · by_cases hb : oldest.amp_envelope.get_state = EnvelopeRs.ADSREnvelopeState.Idle ∨
          oldest.amp_envelope.get_state = EnvelopeRs.ADSREnvelopeState.Release
      · unfold start_voice
        rw [hf]
        dsimp only
        rw [holdest']
        dsimp only
        rw [if_pos hb]
        exact ⟨_, rfl, rfl⟩
      · unfold start_voice
        rw [hf]
        dsimp only
        rw [holdest']
        dsimp only
        rw [if_neg hb]
        exact ⟨_, rfl, rfl⟩
    · intro hb
      unfold start_voice
      rw [hf]
      dsimp only
      rw [holdest']
      dsimp only
      rw [if_pos hb]
    · intro hb
      unfold start_voice
      rw [hf]
      dsimp only
      rw [holdest']
      dsimp only
      rw [if_neg hb]

/-- Witness for C2_voice_stealing at a concrete full pool of 16 voices. -/
theorem C2_voice_stealing_witness :
    fullPool.length = NUM_VOICES ∧
    (let r := start_voice fullPool 100 7 none 1 90 1 (1 / 2) 1 1 1 0 0
        testEnv testEnv testEnv
     countOccupied r.1 ≤ NUM_VOICES ∧
     (∃ i nv, i < fullPool.length ∧ r.1 = fullPool.set i (some nv) ∧
       nv.internal_voice_id = 100 ∧ nv.channel = 1 ∧ nv.note = 90 ∧
       nv.voice_id = (none : Option Int).getD (compute_fallback_voice_id 90 1)) ∧
     ((∀ v ∈ fullPool, v.isSome) →
       ∃ oldest,
         fullPool.getD (oldestVoiceIdx fullPool) none = some oldest ∧
         (∀ j, j < fullPool.length →
           oldest.internal_voice_id ≤ voiceKey (fullPool.getD j none)) ∧
         (∃ nv, r.1 = fullPool.set (oldestVoiceIdx fullPool) (some nv) ∧
           nv.internal_voice_id = 100) ∧
         ((oldest.amp_envelope.get_state = EnvelopeRs.ADSREnvelopeState.Idle ∨
             oldest.amp_envelope.get_state = EnvelopeRs.ADSREnvelopeState.Release) →
           r.2.2 = []) ∧
         (¬(oldest.amp_envelope.get_state = EnvelopeRs.ADSREnvelopeState.Idle ∨
             oldest.amp_envelope.get_state = EnvelopeRs.ADSREnvelopeState.Release) →
           r.2.2 = [⟨7, some oldest.voice_id, oldest.channel, oldest.note⟩]))) :=
  ⟨by decide, C2_voice_stealing fullPool 100 7 none 1 90 1 (1 / 2) 1 1 1 0 0
    testEnv testEnv testEnv (by decide)⟩

/-- C3 counterexample.  A release event with an explicit non-matching voice
id (2) still hits the voice with id 1 because its channel and note match:
the claimed rule says the voice is unaffected, but the code marks it
releasing. -/
theorem C3_identity_rule_counterexample :
    specMatches (some 2) 0 61 c3_voice = false ∧
    start_release_for_voices [some c3_voice] 48000 (some 2) 0 61 =
      [some (releasedVoice c3_voice)] ∧
    (releasedVoice c3_voice).releasing = true := by
  refine ⟨by decide, ?_, rfl⟩
  rfl

/-- C3 (amended).  For NoteOff (release) and Choke, a pool voice is
affected exactly when the supplied voice id equals its id OR the event's
channel and note both equal the voice's — an explicit non-matching id does
not shield a channel-and-note match.  For Choke with an explicit voice id,
only the first matching slot in pool order is cleared (early return);
without an explicit id every matching slot is cleared. -/
theorem C3_matching_rule (voices : List (Option Voice)) (sr : ℚ) (sample_offset : Nat)
    (voice_id? : Option Int) (channel note : Nat) :
    (∀ i v, voices.getD i none = some v →
      (codeMatches voice_id? channel note v →
        (start_release_for_voices voices sr voice_id? channel note).getD i none =
          some (releasedVoice v)) ∧
      (¬codeMatches voice_id? channel note v →
        (start_release_for_voices voices sr voice_id? channel note).getD i none =
          some v)) ∧
    (voice_id? = none →
      ∀ i v, voices.getD i none = some v →
      (codeMatches voice_id? channel note v →
        (choke_voices voices sample_offset voice_id? channel note).1.getD i none = none) ∧
      (¬codeMatches voice_id? channel note v →
        (choke_voices voices sample_offset voice_id? channel note).1.getD i none =
          some v)) ∧
    (∀ id, voice_id? = some id →
      (chokeMatchIdx voice_id? channel note voices = none →
        choke_voices voices sample_offset voice_id? channel note = (voices, [])) ∧
      (∀ k v, chokeMatchIdx voice_id? channel note voices = some k →
        voices.getD k none = some v →
        choke_voices voices sample_offset voice_id? channel note =
          (voices.set k none, [⟨sample_offset, some v.voice_id, channel, note⟩]))) := by
  refine ⟨?_, ?_, ?_⟩
  · exact fun i v h => start_release_characterization sr voice_id? channel note voices i v h
  · rintro rfl
    exact fun i v h => choke_noid_characterization sample_offset channel note voices i v h
  · rintro id rfl
    exact choke_id_characterization sample_offset id channel note voices

/-- Witness for C3_matching_rule: at a concrete one-voice pool the release
event with explicit id 2 affects the channel-and-note-matching voice with
id 1. -/
theorem C3_matching_rule_witness :
    (start_release_for_voices [some c3_voice] 48000 (some 2) 0 61).getD 0 none =
      some (releasedVoice c3_voice) :=
  ((C3_matching_rule [some c3_voice] 48000 3 (some 2) 0 61).1 0 c3_voice rfl).1
    (Or.inr ⟨rfl, rfl⟩)

/-- C6.  The engine can panic: with all 16 slots occupied, a PolyPressure
event whose voice id (5) matches a live voice but whose channel and note
match no voice reaches the no-free-slot case of find_or_create_voice, and
the wrapping slot scan hits the explicit
panic("No available slots for new voices") — modelled as this error value
— instead of completing without a fatal condition. -/
theorem C6_find_or_create_panics :
    process_poly_pressure c6_pool 0 99 testParams 0 (some 5) 0 60 1 =
      Except.error RustPanic.noAvailableSlotsForNewVoices := by
  rfl

/-- C7 counterexample.  A PolyPressure event on an empty pool (so no voice
matches it under any rule) is dropped without synthesizing a voice: the
pool is returned unchanged and still contains no voice, where the claim
demands that a new voice be created. -/
theorem C7_expression_event_dropped_counterexample :
    process_poly_pressure emptyPool 0 0 testParams 0 none 0 60 (1 / 2) =
      Except.ok (emptyPool, 0) ∧
    emptyPool.all Option.isNone = true :=
  ⟨rfl, by decide⟩

/-- C7 (amended).  A polyphonic-expression event is handled only when some
pool voice's id equals the event's voice id (0 when the host supplied
none); when no voice's id matches, the event is dropped and the pool is
returned unchanged — no voice is synthesized. -/
theorem C7_expression_requires_id_match (voices : List (Option Voice))
    (next_voice_index next_internal_voice_id : Nat) (params : SubSynthParams)
    (timing : Nat) (voice_id? : Option Int) (channel note : Nat) (pressure : ℚ)
    (h : ∀ v : Voice, some v ∈ voices → v.voice_id ≠ voice_id?.getD 0) :
    process_poly_pressure voices next_voice_index next_internal_voice_id params timing
      voice_id? channel note pressure = Except.ok (voices, next_voice_index) := by
  have hnone : get_voice_idx voices (voice_id?.getD 0) = none := by
    unfold get_voice_idx
    rw [List.findIdx?_eq_none_iff]
    intro x hx
    cases x with
    | none => rfl
    | some v =>
      simpa using beq_eq_false_iff_ne.mpr (h v hx)
  unfold process_poly_pressure
  rw [hnone]

/-- Witness for C7_expression_requires_id_match at the empty pool. -/
theorem C7_expression_requires_id_match_witness :
    process_poly_pressure emptyPool 3 4 testParams 0 none 0 60 1 =
      Except.ok (emptyPool, 3) :=
  C7_expression_requires_id_match emptyPool 3 4 testParams 0 none 0 60 1
    (fun v hv => absurd (List.eq_of_mem_replicate hv) (by simp))

/-- C4 counterexample.  A concrete envelope in Sustain leaves Sustain after
a single per-sample advance() call with no release() invoked: the blanket
completion arm fires once time * velocity reaches the release duration and
sets the state to Idle. -/
theorem C4_sustain_not_stable_counterexample :
    c4_sustain_env.state = EnvelopeRs.ADSREnvelopeState.Sustain ∧
    c4_sustain_env.advance.state = EnvelopeRs.ADSREnvelopeState.Idle ∧
    EnvelopeRs.ADSREnvelopeState.Idle ≠ EnvelopeRs.ADSREnvelopeState.Sustain := by
  refine ⟨rfl, ?_, by decide⟩
  norm_num [EnvelopeRs.ADSREnvelope.advance, c4_sustain_env]
  decide

/-- C4 (amended).  Per-sample evaluation does change the Sustain state: for
an envelope in Sustain, advance() moves it to Idle as soon as the advanced
time times velocity reaches the release duration, otherwise to Release as
soon as that quantity reaches attack + hold + decay + sustain, and keeps it
in Sustain only below both thresholds — release() is not required for the
state to change. -/
theorem C4_sustain_exit_characterization (e : EnvelopeRs.ADSREnvelope)
    (h : e.state = EnvelopeRs.ADSREnvelopeState.Sustain) :
    e.advance.state =
      if (e.time + e.delta_time_per_sample) * e.velocity ≥ e.release then
        EnvelopeRs.ADSREnvelopeState.Idle
      else if (e.time + e.delta_time_per_sample) * e.velocity ≥
          e.attack + e.hold + e.decay + e.sustain then
        EnvelopeRs.ADSREnvelopeState.Release
      else EnvelopeRs.ADSREnvelopeState.Sustain := by
  obtain ⟨att, hld, dec, sus, rel, st, tm, dt, sr, vel, isus, sc⟩ := e
  simp only at h
  subst h
  by_cases hrel : (tm + dt) * vel ≥ rel
  · simp [EnvelopeRs.ADSREnvelope.advance, hrel]
  · by_cases hsum : (tm + dt) * vel ≥ att + hld + dec + sus
    · simp [EnvelopeRs.ADSREnvelope.advance, hrel, hsum]
    · simp [EnvelopeRs.ADSREnvelope.advance, hrel, hsum]

/-- Witness for C4_sustain_exit_characterization at the concrete Sustain
envelope. -/
theorem C4_sustain_exit_characterization_witness :
    c4_sustain_env.state = EnvelopeRs.ADSREnvelopeState.Sustain ∧
    c4_sustain_env.advance.state =
      (if (c4_sustain_env.time + c4_sustain_env.delta_time_per_sample) *
          c4_sustain_env.velocity ≥ c4_sustain_env.release then
        EnvelopeRs.ADSREnvelopeState.Idle
      else if (c4_sustain_env.time + c4_sustain_env.delta_time_per_sample) *
          c4_sustain_env.velocity ≥ c4_sustain_env.attack + c4_sustain_env.hold +
          c4_sustain_env.decay + c4_sustain_env.sustain then
        EnvelopeRs.ADSREnvelopeState.Release
      else EnvelopeRs.ADSREnvelopeState.Sustain) :=
  ⟨by decide, C4_sustain_exit_characterization c4_sustain_env (by decide)⟩

/-- C5 counterexample.  Release the filter.rs envelope mid-Attack: after
one sample the partial attack value is 1/2; release() is invoked; the next
sample of the Release stage yields 2/5, whereas the claimed ramp — linear
from the captured value 1/2 down to 0 over the 10 s release, evaluated 1 s
in — would give 1/2 * (1 - 1/10) = 9/20. -/
theorem C5_release_ramp_counterexample :
    (c5_env0.get_value).1 = 1 / 2 ∧
    (((c5_env0.get_value).2.invoke_release).get_value).1 = 2 / 5 ∧
    (2 / 5 : ℚ) ≠ 1 / 2 * (1 - 1 / 10) := by
  refine ⟨?_, ?_, by norm_num⟩ <;>
    norm_num [FilterRs.ADSREnvelope.get_value, FilterRs.ADSREnvelope.invoke_release,
      FilterRs.ADSREnvelope.new, c5_env0]

/-- C5 (amended).  release() only sets the state to Release: it neither
captures the current output level nor resets the time accumulator.  The
Release-stage output is sustain * (1 - time / (release / velocity)) — a
ramp anchored at the sustain level, not at the level held when release()
was called — evaluated at the un-reset accumulator, and once the
accumulator reaches release / velocity the envelope outputs 0 and enters
Idle with time reset to 0. -/
theorem C5_release_stage_characterization (e : FilterRs.ADSREnvelope) :
    (e.invoke_release.state = FilterRs.ADSREnvelopeState.Release ∧
      e.invoke_release.time = e.time) ∧
    (e.state = FilterRs.ADSREnvelopeState.Release →
      ((e.time + e.delta_time_per_sample < e.release / e.velocity →
        (e.get_value).1 =
          e.sustain * (1 - (e.time + e.delta_time_per_sample) / (e.release / e.velocity)) ∧
        (e.get_value).2.state = FilterRs.ADSREnvelopeState.Release ∧
        (e.get_value).2.time = e.time + e.delta_time_per_sample) ∧
      (e.time + e.delta_time_per_sample ≥ e.release / e.velocity →
        (e.get_value).1 = 0 ∧
        (e.get_value).2.state = FilterRs.ADSREnvelopeState.Idle ∧
        (e.get_value).2.time = 0))) := by
  obtain ⟨att, dec, sus, rel, st, tm, dt, sr, vel⟩ := e
  refine ⟨⟨rfl, rfl⟩, ?_⟩
  intro hs
  simp only at hs
  subst hs
  constructor
  · intro hlt
    have hn : ¬ (tm + dt ≥ rel / vel) := not_le.mpr hlt
    simp [FilterRs.ADSREnvelope.get_value, hn]
  · intro hge
    simp [FilterRs.ADSREnvelope.get_value, hge]

/-- Witness for C5_release_stage_characterization at a concrete envelope in
the Release state. -/
theorem C5_release_stage_characterization_witness :
    ((c5_release_env.invoke_release.state = FilterRs.ADSREnvelopeState.Release ∧
      c5_release_env.invoke_release.time = c5_release_env.time) ∧
    (c5_release_env.state = FilterRs.ADSREnvelopeState.Release →
      ((c5_release_env.time + c5_release_env.delta_time_per_sample <
          c5_release_env.release / c5_release_env.velocity →
        (c5_release_env.get_value).1 =
          c5_release_env.sustain * (1 - (c5_release_env.time +
            c5_release_env.delta_time_per_sample) /
            (c5_release_env.release / c5_release_env.velocity)) ∧
        (c5_release_env.get_value).2.state = FilterRs.ADSREnvelopeState.Release ∧
        (c5_release_env.get_value).2.time =
          c5_release_env.time + c5_release_env.delta_time_per_sample) ∧
      (c5_release_env.time + c5_release_env.delta_time_per_sample ≥
          c5_release_env.release / c5_release_env.velocity →
        (c5_release_env.get_value).1 = 0 ∧
        (c5_release_env.get_value).2.state = FilterRs.ADSREnvelopeState.Idle ∧
        (c5_release_env.get_value).2.time = 0)))) :=
  C5_release_stage_characterization c5_release_env

/-- C8.  lib.rs:1036 constructs a brand-new DCBlocker for every sample, so
the filter it applies is the identity: with zeroed memory,
output = input - 0 + 0.995 * 0 = input, and a constant offset passes
through unchanged every sample.  By contrast, the second conjunct shows
what one step of carried-over memory would have produced on the same
constant input (0.995 instead of 1), which is what the claim describes. -/
theorem C8_dc_blocker_is_identity_per_sample :
    (∀ x : ℚ, dc_blocked_sample x = x) ∧
    ((DCBlocker.new.process 1).2.process 1).1 = 199 / 200 := by
  constructor
  · intro x
    unfold dc_blocked_sample DCBlocker.process DCBlocker.new
    norm_num
  · norm_num [DCBlocker.process, DCBlocker.new]

/-- C9.  The pan gains of lib.rs:1037-1038 are sqrt(1 - pan) and sqrt(pan);
for every pan in [0, 1] their squares sum to 1 (equal-power law). -/
theorem C9_equal_power_pan (pan : ℝ) (h0 : 0 ≤ pan) (h1 : pan ≤ 1) :
    left_amp pan ^ 2 + right_amp pan ^ 2 = 1 := by
  unfold left_amp right_amp
  rw [Real.sq_sqrt (by linarith), Real.sq_sqrt h0]
  ring

/-- Witness for C9_equal_power_pan at pan = 1/2. -/
theorem C9_equal_power_pan_witness :
    (0 : ℝ) ≤ 1 / 2 ∧ (1 / 2 : ℝ) ≤ 1 ∧
    left_amp (1 / 2) ^ 2 + right_amp (1 / 2) ^ 2 = 1 :=
  ⟨by norm_num, by norm_num, C9_equal_power_pan (1 / 2) (by norm_num) (by norm_num)⟩

/-- Key arithmetic fact behind the fallback id: for a low part below 2^16,
the bitwise or with a left-shifted high part is exactly the sum. -/
theorem lor_shiftLeft_eq_add (a b : Nat) (ha : a < 2 ^ 16) :
    a ||| (b <<< 16) = 2 ^ 16 * b + a := by
  apply Nat.eq_of_testBit_eq
  intro j
  rw [Nat.testBit_lor, Nat.testBit_shiftLeft, Nat.testBit_mul_pow_two_add b ha j]
  by_cases hj : j < 16
  · simp [hj, Nat.not_le.mpr hj]
  · have hle : 16 ≤ j := Nat.not_lt.mp hj
    have hf : a.testBit j = false :=
      Nat.testBit_lt_two_pow (lt_of_lt_of_le ha (Nat.pow_le_pow_right (by norm_num) hle))
    simp [hj, hf, hle]

/-- C10.  The fallback voice id note | (channel << 16) is injective over
8-bit (channel, note) pairs: two ids agree exactly when both the note and
the channel agree (so equal pairs give equal ids and distinct pairs give
distinct ids). -/
theorem C10_fallback_voice_id_injective (n1 c1 n2 c2 : Nat)
    (hn1 : n1 < 256) (hc1 : c1 < 256) (hn2 : n2 < 256) (hc2 : c2 < 256) :
    compute_fallback_voice_id n1 c1 = compute_fallback_voice_id n2 c2 ↔
      (n1 = n2 ∧ c1 = c2) := by
  unfold compute_fallback_voice_id
  rw [Int.ofNat_inj]
  show n1 ||| (c1 <<< 16) = n2 ||| (c2 <<< 16) ↔ _
  rw [lor_shiftLeft_eq_add n1 c1 (by omega), lor_shiftLeft_eq_add n2 c2 (by omega)]
  constructor
  · intro h
    constructor <;> omega
  · rintro ⟨rfl, rfl⟩
    rfl

/-- Witness for C10_fallback_voice_id_injective at two concrete distinct
pairs. -/
theorem C10_fallback_voice_id_injective_witness :
    (60 : Nat) < 256 ∧ (1 : Nat) < 256 ∧ (61 : Nat) < 256 ∧ (2 : Nat) < 256 ∧
    (compute_fallback_voice_id 60 1 = compute_fallback_voice_id 61 2 ↔
      ((60 : Nat) = 61 ∧ (1 : Nat) = 2)) :=
  ⟨by decide, by decide, by decide, by decide,
    C10_fallback_voice_id_injective 60 1 61 2 (by decide) (by decide) (by decide) (by decide)⟩

end Subsynth
